import Mathlib

/-!
Shallow embedding of the Seeking Alpha data connector
(`seekingalphad89ba32s/__init__.py`) and proofs about its claims.

The Python module is a sequential crawl-and-extract pipeline:
`query` reads configuration, `request_entries_with_timeout` fetches the
listing page and drives `parse_entry_for_elements` over the candidate
links, `request_content_with_timeout` fetches one article and extracts
title/author/date/body, `convert_date_to_standard_format` normalizes the
site date format, and `check_for_max_age` filters by recency.

Effectful pieces (HTTP fetches, HTML parsing primitives, the current
time) are modelled as explicit inputs: a fetch is a function from a URL
to the parsed payload (or an error), the current time is a parameter.
Python exceptions are modelled with `Except`/`Option`; machine-level
datetime arithmetic is modelled over `Nat`/`Int` with the proleptic
Gregorian calendar and Python `datetime`'s year bounds (1..9999).
-/

namespace SeekingAlpha

/-- A normalized output record, mirroring the `Item` constructed at the end
of `request_content_with_timeout` (all fields are strings there). -/
structure Item where
  title : String
  content : String
  author : String
  createdAt : String
  url : String
  domain : String
deriving Repr, DecidableEq

/-- A candidate link from the listing page: one anchor element
`<a data-test-id="post-list-item-title" href=...>`; only its `href`
attribute is consumed by the code. -/
structure Card where
  href : String
deriving Repr, DecidableEq

/-- URL construction from `parse_entry_for_elements`:
`"https://seekingalpha.com" + card["href"]` (unconditional prepend). -/
def articleUrl (c : Card) : String :=
  "https://seekingalpha.com" ++ c.href

/-- Embedding of `parse_entry_for_elements(_cards, _max_age)`: iterate the
cards in order; for each one call `request_content_with_timeout` (modelled
by the oracle `fetch`, already specialized to the max-age budget); yield
the item if one is produced, otherwise break out of the loop.  The
generator's yielded sequence is the returned list. -/
def parse_entry_for_elements (fetch : String → Option Item) : List Card → List Item
  | [] => []
  | c :: rest =>
    match fetch (articleUrl c) with
    | some item => item :: parse_entry_for_elements fetch rest
    | none => []

/-- Default configuration constant `DEFAULT_OLDNESS_SECONDS`. -/
def DEFAULT_OLDNESS_SECONDS : Int := 360
/-- Default configuration constant `DEFAULT_MAXIMUM_ITEMS`. -/
def DEFAULT_MAXIMUM_ITEMS : Int := 25
/-- Default configuration constant `DEFAULT_MIN_POST_LENGTH`. -/
def DEFAULT_MIN_POST_LENGTH : Int := 10

/-- The dynamic argument of `read_parameters`: `None`, some non-dict value,
or a dict (modelled as an association list with integer values, the type
the three parameters are used at). -/
inductive PyParams where
  | noneV : PyParams
  | nonDict : PyParams
  | dict (m : List (String × Int)) : PyParams
deriving Repr, DecidableEq

/-- Python `d.get(key, default)` on a dict modelled as an association
list: the value at the first matching key, or the default. -/
def dictGet (m : List (String × Int)) (k : String) (d : Int) : Int :=
  match m.lookup k with
  | some v => v
  | none => d

/-- Embedding of `read_parameters(parameters)`.  The guard
`if parameters and isinstance(parameters, dict)` is true only for a
non-empty dict (an empty dict is falsy in Python); each value is then
read with `dict.get(key, default)`.  The `try/except KeyError` wrappers
in the source are dead code because `dict.get` never raises. -/
def read_parameters : PyParams → Int × Int × Int
  | .noneV => (DEFAULT_OLDNESS_SECONDS, DEFAULT_MAXIMUM_ITEMS, DEFAULT_MIN_POST_LENGTH)
  | .nonDict => (DEFAULT_OLDNESS_SECONDS, DEFAULT_MAXIMUM_ITEMS, DEFAULT_MIN_POST_LENGTH)
  | .dict m =>
    if m.isEmpty then
      (DEFAULT_OLDNESS_SECONDS, DEFAULT_MAXIMUM_ITEMS, DEFAULT_MIN_POST_LENGTH)
    else
      (dictGet m "max_oldness_seconds" DEFAULT_OLDNESS_SECONDS,
       dictGet m "maximum_items_to_collect" DEFAULT_MAXIMUM_ITEMS,
       dictGet m "min_post_length" DEFAULT_MIN_POST_LENGTH)

/-- The item-cap loop body of `query`: given the stream the scanner
produces, yield each item, incrementing `yielded_items`, and break once
`yielded_items >= maximum_items_to_collect` (checked after the yield). -/
def queryLoop (maxItems : Int) : List Item → Int → List Item
  | [], _ => []
  | item :: rest, yielded =>
    item :: (if yielded + 1 ≥ maxItems then [] else queryLoop maxItems rest (yielded + 1))

/-- Yielded sequence of `query` as a function of the scanner's yielded
sequence and the resolved `maximum_items_to_collect` (counter starts
at 0). -/
def queryYield (scan : List Item) (maxItems : Int) : List Item :=
  queryLoop maxItems scan 0

/-- Transport/parse errors raised inside a fetch (modelled opaquely as a
message, as `logging.exception` only records them). -/
abbrev Err := String

/-- Embedding of the `try/except` skeleton of
`request_content_with_timeout`: the body (fetch + parse + age filter) is
an effectful computation that either returns Python's `Item`-or-`None`
result or raises; the handler logs and falls through, returning `None`. -/
def request_content_with_timeout (body : String → Except Err (Option Item))
    (url : String) : Option Item :=
  match body url with
  | .ok r => r
  | .error _ => none

/-- Embedding of `request_entries_with_timeout`: the listing fetch+parse
either raises (handler yields nothing) or produces the card list, which
is handed to `parse_entry_for_elements`. -/
def request_entries_with_timeout (listing : Except Err (List Card))
    (fetch : String → Option Item) : List Item :=
  match listing with
  | .ok cards => parse_entry_for_elements fetch cards
  | .error _ => []

/-- Embedding of `query(parameters)`: resolve the configuration, drive the
scanner, and cap the yielded records. -/
def query (parameters : PyParams) (listing : Except Err (List Card))
    (fetch : String → Option Item) : List Item :=
  let p := read_parameters parameters
  queryYield (request_entries_with_timeout listing fetch) p.2.1

/-- A parsed direct child element of the content container: its tag name
and its concatenated text, the two features the extraction loop reads
(`el.name`, `el.text`). -/
structure El where
  name : String
  text : String
deriving Repr, DecidableEq

/-- ASCII word characters: models the regex class `\w` on the ASCII range
(Python also admits non-ASCII word characters; the code only meets the
site's ASCII ticker boilerplate, and the claims use ASCII words). -/
def isWordChar (c : Char) : Bool :=
  c.isAlphanum || c = '_'

/-- Match a literal pattern at the head of a character list, returning
the remainder on success. -/
def dropLead : List Char → List Char → Option (List Char)
  | [], l => some l
  | _ :: _, [] => none
  | p :: ps, c :: cs => if c = p then dropLead ps cs else none

/-- The regex anchor `$` in Python also matches just before a single
trailing newline, so matching up to `$` works on the input with one
trailing newline removed. -/
def chopNl (l : List Char) : List Char :=
  if l.getLast? = some '\n' then l.dropLast else l

/-- After the literal `More on `, the pattern `\w+(:)?$` requires a
non-empty greedy run of word characters, optionally followed by one
colon, and then the end of the input. -/
def wordColonTail (r : List Char) : Bool :=
  (!(r.takeWhile isWordChar).isEmpty) &&
    ((r.dropWhile isWordChar).isEmpty || r.dropWhile isWordChar = [':'])

/-- Embedding of `re.match(REGEX_PATTERN, el.text)` with
`REGEX_PATTERN = r"^More on \w+(:)?$"` (true iff a match object is
returned). -/
def matchesMoreOn (s : String) : Bool :=
  match dropLead "More on ".data (chopNl s.data) with
  | some r => wordColonTail r
  | none => false

/-- Embedding of the body-extraction loop of
`request_content_with_timeout`: iterate the container's direct children;
an `h2` child ends the loop; a `figure` child and a child with empty text
contribute nothing; a child whose text matches the boilerplate regex ends
the loop; any other child appends its text plus a newline.  The source
accumulates into `content` left to right; this recursion builds the same
string by associativity of append. -/
def extractBody : List El → String
  | [] => ""
  | el :: rest =>
    if el.name = "h2" then ""
    else if el.name ≠ "figure" ∧ el.text ≠ "" then
      (if matchesMoreOn el.text then "" else el.text ++ "\n" ++ extractBody rest)
    else
      extractBody rest

/-- Python `str.lstrip(chars)`: removes the longest leading run of
characters each of which occurs in `chars` — a character-set strip, not
removal of `chars` as a prefix. -/
def lstrip (s chars : String) : String :=
  String.mk (s.data.dropWhile (fun c => chars.data.contains c))

/-- The author-field construction of `request_content_with_timeout`
(line 88): `author = soup.find(...).text.lstrip("By: ")`. -/
def stripAuthorLabel (raw : String) : String :=
  lstrip raw "By: "

/-- A Python `datetime.datetime` value at second precision (every
datetime this pipeline builds has zero microseconds: the site format has
no seconds, and the current time is truncated through the canonical
format before comparison). -/
structure DT where
  year : Nat
  month : Nat
  day : Nat
  hour : Nat
  minute : Nat
  second : Nat
deriving Repr, DecidableEq

/-- Proleptic Gregorian leap-year rule used by Python `datetime`. -/
def isLeap (y : Nat) : Prop :=
  (y % 4 = 0 ∧ y % 100 ≠ 0) ∨ y % 400 = 0

instance (y : Nat) : Decidable (isLeap y) := by
  unfold isLeap
  infer_instance

/-- Length of a month in a given year. -/
def daysInMonth (y m : Nat) : Nat :=
  if m = 2 then (if isLeap y then 29 else 28)
  else if m = 4 ∨ m = 6 ∨ m = 9 ∨ m = 11 then 30
  else 31

/-- Range constraints a Python `datetime` enforces on construction:
`MINYEAR = 1`, `MAXYEAR = 9999`, months 1..12, day within the month,
time fields in range. -/
def validDT (dt : DT) : Prop :=
  1 ≤ dt.year ∧ dt.year ≤ 9999 ∧ 1 ≤ dt.month ∧ dt.month ≤ 12 ∧
  1 ≤ dt.day ∧ dt.day ≤ daysInMonth dt.year dt.month ∧
  dt.hour ≤ 23 ∧ dt.minute ≤ 59 ∧ dt.second ≤ 59

instance (dt : DT) : Decidable (validDT dt) := by
  unfold validDT
  infer_instance

/-- Decimal digit rendering. -/
def digitChar (n : Nat) : Char :=
  match n with
  | 0 => '0'
  | 1 => '1'
  | 2 => '2'
  | 3 => '3'
  | 4 => '4'
  | 5 => '5'
  | 6 => '6'
  | 7 => '7'
  | 8 => '8'
  | 9 => '9'
  | _ => '*'

/-- Numeric value of a digit character. -/
def digitVal (c : Char) : Nat :=
  c.toNat - 48

/-- Recognizer for the characters 0..9. -/
def isDigitChar (c : Char) : Bool :=
  48 ≤ c.toNat && c.toNat ≤ 57

/-- Zero-padded two-digit rendering (`%02d`; agrees with it for
arguments up to 99, the only ones strftime meets here). -/
def pad2 (n : Nat) : List Char :=
  [digitChar (n / 10 % 10), digitChar (n % 10)]

/-- Zero-padded four-digit rendering (`%04d` as used by `%Y`; agrees
with it for arguments up to 9999, guaranteed by MAXYEAR). -/
def pad4 (n : Nat) : List Char :=
  [digitChar (n / 1000 % 10), digitChar (n / 100 % 10), digitChar (n / 10 % 10),
   digitChar (n % 10)]

/-- Embedding of `datetime.strftime(dt, "%Y-%m-%dT%H:%M:%S.00Z")`: the
canonical timestamp rendering. -/
def formatCanonical (dt : DT) : String :=
  String.mk (pad4 dt.year ++ '-' :: pad2 dt.month ++ '-' :: pad2 dt.day ++
    'T' :: pad2 dt.hour ++ ':' :: pad2 dt.minute ++ ':' :: pad2 dt.second ++
    ['.', '0', '0', 'Z'])

/-- Read exactly two digit characters. -/
def read2 : List Char → Option (Nat × List Char)
  | c1 :: c2 :: rest =>
    if isDigitChar c1 && isDigitChar c2 then
      some (digitVal c1 * 10 + digitVal c2, rest)
    else none
  | _ => none

/-- Read exactly four digit characters (the `%Y` directive matches
exactly four digits). -/
def read4 : List Char → Option (Nat × List Char)
  | c1 :: c2 :: c3 :: c4 :: rest =>
    if isDigitChar c1 && isDigitChar c2 && isDigitChar c3 && isDigitChar c4 then
      some (((digitVal c1 * 10 + digitVal c2) * 10 + digitVal c3) * 10 + digitVal c4, rest)
    else none
  | _ => none

/-- Read one or two digit characters (the numeric strptime directives
such as `%d` and `%I` accept one or two digits). -/
def read1or2 : List Char → Option (Nat × List Char)
  | c1 :: c2 :: rest =>
    if isDigitChar c1 && isDigitChar c2 then
      some (digitVal c1 * 10 + digitVal c2, rest)
    else if isDigitChar c1 then some (digitVal c1, c2 :: rest)
    else none
  | c1 :: [] => if isDigitChar c1 then some (digitVal c1, []) else none
  | [] => none

/-- Consume one expected literal character. -/
def expectC (a : Char) : List Char → Option (List Char)
  | c :: rest => if c = a then some rest else none
  | [] => none

/-- Embedding of `datetime.strptime(s, "%Y-%m-%dT%H:%M:%S.00Z")`
restricted to the exact canonical layout the pipeline produces and
consumes (Python is additionally lenient about one-digit fields and
letter case; no string in this pipeline exercises that).  The final
range conditions are the ones `datetime` itself enforces. -/
def parseCanonical (s : String) : Option DT :=
  (read4 s.data).bind fun yl =>
  (expectC '-' yl.2).bind fun l1 =>
  (read2 l1).bind fun ml =>
  (expectC '-' ml.2).bind fun l2 =>
  (read2 l2).bind fun dl =>
  (expectC 'T' dl.2).bind fun l3 =>
  (read2 l3).bind fun hl =>
  (expectC ':' hl.2).bind fun l4 =>
  (read2 l4).bind fun mil =>
  (expectC ':' mil.2).bind fun l5 =>
  (read2 l5).bind fun sl =>
  match sl.2 with
  | '.' :: '0' :: '0' :: 'Z' :: [] =>
    let dt : DT := ⟨yl.1, ml.1, dl.1, hl.1, mil.1, sl.1⟩
    if validDT dt then some dt else none
  | _ => none

/-- Syntactic check that a string has the fixed canonical shape
`YYYY-MM-DDTHH:MM:SS.00Z`: four digits, dash, two digits, dash, two
digits, `T`, three colon-separated two-digit groups, then `.00Z`. -/
def matchesCanonicalPattern (s : String) : Bool :=
  match
    (read4 s.data).bind fun yl =>
    (expectC '-' yl.2).bind fun l1 =>
    (read2 l1).bind fun ml =>
    (expectC '-' ml.2).bind fun l2 =>
    (read2 l2).bind fun dl =>
    (expectC 'T' dl.2).bind fun l3 =>
    (read2 l3).bind fun hl =>
    (expectC ':' hl.2).bind fun l4 =>
    (read2 l4).bind fun mil =>
    (expectC ':' mil.2).bind fun l5 =>
    (read2 l5).bind fun sl =>
    some sl.2
  with
  | some ('.' :: '0' :: '0' :: 'Z' :: []) => true
  | _ => false

/-- Month abbreviations as matched by `%b` (the site renders them
capitalized with C locale names; Python additionally matches other
letter cases, which no site string uses). -/
def monthNames : List (String × Nat) :=
  [("Jan", 1), ("Feb", 2), ("Mar", 3), ("Apr", 4), ("May", 5), ("Jun", 6),
   ("Jul", 7), ("Aug", 8), ("Sep", 9), ("Oct", 10), ("Nov", 11), ("Dec", 12)]

/-- Try each month abbreviation at the head of the input. -/
def readMonthAux : List (String × Nat) → List Char → Option (Nat × List Char)
  | [], _ => none
  | (nm, v) :: rest, l =>
    match dropLead nm.data l with
    | some r => some (v, r)
    | none => readMonthAux rest l

/-- Read a `%b` month abbreviation. -/
def readMonth (l : List Char) : Option (Nat × List Char) :=
  readMonthAux monthNames l

/-- Read a `%p` marker (site strings render AM/PM uppercase). -/
def readAmPm : List Char → Option (Bool × List Char)
  | 'A' :: 'M' :: rest => some (false, rest)
  | 'P' :: 'M' :: rest => some (true, rest)
  | _ => none

/-- strptime's 12-hour to 24-hour conversion for `%I` with `%p`. -/
def to24 (h12 : Nat) (pm : Bool) : Nat :=
  if pm then (if h12 = 12 then 12 else h12 + 12)
  else (if h12 = 12 then 0 else h12)

/-- Embedding of `datetime.strptime(s, "%b. %d, %Y %I:%M %p")`
restricted to the site's fixed rendering "Mon. D, YYYY H:MM AM ET"
(single spaces, uppercase AM/PM, two-digit minutes; Python is lenient
about whitespace runs, letter case and one-digit minutes, which no site
string uses).  The final conditions are strptime's `%I` range 1..12 and
the ranges `datetime` enforces on construction. -/
def parseSite (s : String) : Option DT :=
  (readMonth s.data).bind fun ml =>
  (expectC '.' ml.2).bind fun l1 =>
  (expectC ' ' l1).bind fun l2 =>
  (read1or2 l2).bind fun dl =>
  (expectC ',' dl.2).bind fun l3 =>
  (expectC ' ' l3).bind fun l4 =>
  (read4 l4).bind fun yl =>
  (expectC ' ' yl.2).bind fun l5 =>
  (read1or2 l5).bind fun hl =>
  (expectC ':' hl.2).bind fun l6 =>
  (read2 l6).bind fun mil =>
  (expectC ' ' mil.2).bind fun l7 =>
  (readAmPm l7).bind fun ap =>
  match ap.2 with
  | [] =>
    let dt : DT := ⟨yl.1, ml.1, dl.1, to24 hl.1 ap.1, mil.1, 0⟩
    if 1 ≤ hl.1 ∧ hl.1 ≤ 12 ∧ validDT dt then some dt else none
  | _ => none

/-- Embedding of `_date.replace(" ET", "")`: remove every (non
overlapping, left to right) occurrence of the three-character pattern
space-E-T. -/
def replaceET : List Char → List Char
  | ' ' :: 'E' :: 'T' :: rest => replaceET rest
  | c :: rest => c :: replaceET rest
  | [] => []

/-- String-level wrapper for `replaceET`. -/
def removeET (s : String) : String :=
  String.mk (replaceET s.data)

/-- Embedding of `datetime + timedelta(hours=4)` on valid datetimes:
add four hours, and when the hour passes 23 advance to the next
calendar day, rolling the month and year over as needed. -/
def addHours4 (dt : DT) : DT :=
  if dt.hour + 4 ≤ 23 then
    ⟨dt.year, dt.month, dt.day, dt.hour + 4, dt.minute, dt.second⟩
  else if dt.day < daysInMonth dt.year dt.month then
    ⟨dt.year, dt.month, dt.day + 1, dt.hour + 4 - 24, dt.minute, dt.second⟩
  else if dt.month < 12 then
    ⟨dt.year, dt.month + 1, 1, dt.hour + 4 - 24, dt.minute, dt.second⟩
  else
    ⟨dt.year + 1, 1, 1, dt.hour + 4 - 24, dt.minute, dt.second⟩

/-- Embedding of `convert_date_to_standard_format(_date)`: remove the
" ET" occurrences, parse with the site format, add four hours, render
canonically.  A parse failure models strptime's ValueError and the year
bound models the OverflowError `datetime + timedelta` raises past
MAXYEAR; both exceptions propagate out of the Python function, so the
embedding returns no string for them. -/
def convert_date_to_standard_format (s : String) : Option String :=
  match parseSite (removeET s) with
  | none => none
  | some dt =>
    let dt2 := addHours4 dt
    if dt2.year ≤ 9999 then some (formatCanonical dt2) else none

/-- Days from 0001-01-01 to January 1 of the given year (proleptic
Gregorian, as `datetime.toordinal` counts). -/
def daysBeforeYear (y : Nat) : Nat :=
  365 * (y - 1) + (y - 1) / 4 - (y - 1) / 100 + (y - 1) / 400

/-- Days from January 1 to the first day of the given month. -/
def daysBeforeMonth (y m : Nat) : Nat :=
  (match m with
   | 1 => 0
   | 2 => 31
   | 3 => 59
   | 4 => 90
   | 5 => 120
   | 6 => 151
   | 7 => 181
   | 8 => 212
   | 9 => 243
   | 10 => 273
   | 11 => 304
   | _ => 334)
  + (if 3 ≤ m ∧ isLeap y then 1 else 0)

/-- Absolute second count of a datetime (anchored at 0001-01-01
00:00:00), the measure under which Python's `(a - b).total_seconds()`
is the difference `toSeconds a - toSeconds b`. -/
def toSeconds (dt : DT) : Nat :=
  (daysBeforeYear dt.year + daysBeforeMonth dt.year dt.month + (dt.day - 1)) * 86400
  + dt.hour * 3600 + dt.minute * 60 + dt.second

/-- Embedding of `check_for_max_age(_date, _max_age)`: parse the
canonical timestamp (a mismatch raises out of the function: `none`);
compare the elapsed seconds between the current time (a parameter here;
in the source `datetime.now(pytz.utc)` truncated to whole seconds
through the canonical format) and the parsed time against the budget,
returning `True` on `<=` and `False` otherwise. -/
def check_for_max_age (s : String) (maxAge : Int) (now : DT) : Option Bool :=
  match parseCanonical s with
  | none => none
  | some dt =>
    some (if (toSeconds now : Int) - (toSeconds dt : Int) ≤ maxAge then true else false)

/-- A concrete record used for concrete instantiations. -/
def itemA : Item :=
  ⟨"Some title", "Some body\n", "Reporter", "2023-07-18T12:13:00.00Z",
   "https://seekingalpha.com/news/1", "seekingalpha.com"⟩

/-- Helper: the cap loop never yields more than `maxItems - yielded`
items once the counter is strictly below the cap. -/
theorem queryLoop_length_le (scan : List Item) (maxItems yielded : Int)
    (h : yielded < maxItems) :
    ((queryLoop maxItems scan yielded).length : Int) ≤ maxItems - yielded := by
  induction scan generalizing yielded with
  | nil => simp [queryLoop]; omega
  | cons item rest ih =>
    simp only [queryLoop]
    by_cases hc : yielded + 1 ≥ maxItems
    · simp [hc]; omega
    · have := ih (yielded + 1) (by omega)
      simp only [if_neg hc, List.length_cons]
      push_cast
      omega

/-- Helper: the character list underlying `String.mk`. -/
theorem data_mk (l : List Char) : (String.mk l).data = l := rfl

/-- Helper: `digitVal` inverts `digitChar` on digits. -/
theorem digitVal_digitChar (d : Nat) (h : d < 10) : digitVal (digitChar d) = d := by
  interval_cases d <;> rfl

/-- Helper: `digitChar` of a digit is a digit character. -/
theorem isDigitChar_digitChar (d : Nat) (h : d < 10) :
    isDigitChar (digitChar d) = true := by
  interval_cases d <;> rfl

/-- Helper: `digitVal` after a `% 10` rendering. -/
theorem digitVal_mod (n : Nat) : digitVal (digitChar (n % 10)) = n % 10 :=
  digitVal_digitChar _ (Nat.mod_lt n (by decide))

/-- Helper: rendered digits pass the digit test. -/
theorem isDigitChar_mod (n : Nat) : isDigitChar (digitChar (n % 10)) = true :=
  isDigitChar_digitChar _ (Nat.mod_lt n (by decide))

/-- Helper: reading back a two-digit rendering recovers the number. -/
theorem read2_pad2 (n : Nat) (h : n ≤ 99) (rest : List Char) :
    read2 (pad2 n ++ rest) = some (n, rest) := by
  simp [pad2, read2, isDigitChar_mod, digitVal_mod]
  omega

/-- Helper: reading back a four-digit rendering recovers the number. -/
theorem read4_pad4 (n : Nat) (h : n ≤ 9999) (rest : List Char) :
    read4 (pad4 n ++ rest) = some (n, rest) := by
  simp [pad4, read4, isDigitChar_mod, digitVal_mod]
  omega

/-- Helper: consuming the expected literal character. -/
theorem expectC_cons (a : Char) (rest : List Char) :
    expectC a (a :: rest) = some rest := by
  simp [expectC]

/-- Helper: every month has at least one day. -/
theorem daysInMonth_pos (y m : Nat) : 1 ≤ daysInMonth y m := by
  unfold daysInMonth
  split_ifs <;> omega

/-- Helper: no month has more than 31 days. -/
theorem daysInMonth_le (y m : Nat) : daysInMonth y m ≤ 31 := by
  unfold daysInMonth
  split_ifs <;> omega

/-- Helper: the cumulative month table advances by the month length. -/
theorem daysBeforeMonth_succ (y m : Nat) (h1 : 1 ≤ m) (h2 : m ≤ 11) :
    daysBeforeMonth y (m + 1) = daysBeforeMonth y m + daysInMonth y m := by
  interval_cases m <;> simp [daysBeforeMonth, daysInMonth] <;> split_ifs <;> omega

/-- Helper: the day count before a year advances by the year length. -/
theorem daysBeforeYear_succ (y : Nat) (h : 1 ≤ y) :
    daysBeforeYear (y + 1) = daysBeforeYear y + 365 + (if isLeap y then 1 else 0) := by
  obtain ⟨a, rfl⟩ : ∃ a, y = a + 1 := ⟨y - 1, by omega⟩
  unfold daysBeforeYear isLeap
  simp only [Nat.add_sub_cancel]
  rw [Nat.succ_div a 4, Nat.succ_div a 100, Nat.succ_div a 400]
  split_ifs <;> omega

/-- Helper: adding four hours adds exactly 14400 seconds in absolute
time, across day, month and year rollovers. -/
theorem toSeconds_addHours4 (dt : DT) (h : validDT dt) :
    toSeconds (addHours4 dt) = toSeconds dt + 14400 := by
  obtain ⟨h1, h2, h3, h4, h5, h6, h7, h8, h9⟩ := h
  unfold addHours4
  split_ifs with hh hda hmo
  · simp [toSeconds]
    omega
  · simp [toSeconds]
    omega
  · have hstep := daysBeforeMonth_succ dt.year dt.month h3 (by omega)
    simp [toSeconds]
    omega
  · have hm12 : dt.month = 12 := by omega
    have hstep := daysBeforeYear_succ dt.year h1
    simp only [toSeconds]
    rw [hm12] at hda h6 ⊢
    simp [daysBeforeMonth, daysInMonth] at hda h6 ⊢
    by_cases hL : isLeap dt.year
    · simp [hL] at hstep ⊢
      omega
    · simp [hL] at hstep ⊢
      omega

/-- Helper: `validDT` on an explicit record, with the projections
evaluated. -/
theorem validDT_mk (y m d hh mm ss : Nat) :
    validDT ⟨y, m, d, hh, mm, ss⟩ ↔
      (1 ≤ y ∧ y ≤ 9999 ∧ 1 ≤ m ∧ m ≤ 12 ∧ 1 ≤ d ∧ d ≤ daysInMonth y m ∧
       hh ≤ 23 ∧ mm ≤ 59 ∧ ss ≤ 59) :=
  Iff.rfl

/-- Helper: adding four hours preserves datetime validity as long as
the year does not overflow past MAXYEAR. -/
theorem validDT_addHours4 (dt : DT) (h : validDT dt)
    (hy : (addHours4 dt).year ≤ 9999) : validDT (addHours4 dt) := by
  obtain ⟨h1, h2, h3, h4, h5, h6, h7, h8, h9⟩ := h
  have hp1 := daysInMonth_pos dt.year (dt.month + 1)
  have hp2 := daysInMonth_pos (dt.year + 1) 1
  unfold addHours4 at hy ⊢
  split_ifs at hy ⊢ with hh hda hmo
  · exact (validDT_mk _ _ _ _ _ _).mpr ⟨h1, h2, h3, h4, h5, h6, by omega, h8, h9⟩
  · exact (validDT_mk _ _ _ _ _ _).mpr
      ⟨h1, h2, h3, h4, by omega, by omega, by omega, h8, h9⟩
  · exact (validDT_mk _ _ _ _ _ _).mpr
      ⟨h1, h2, by omega, by omega, by omega, hp1, by omega, h8, h9⟩
  · have hy9 : dt.year + 1 ≤ 9999 := by simpa using hy
    exact (validDT_mk _ _ _ _ _ _).mpr
      ⟨by omega, hy9, by omega, by omega, by omega, hp2, by omega, h8, h9⟩

/-- Helper: whatever the site parser accepts satisfies the `datetime`
validity constraints (they are checked at the end of the parse). -/
theorem parseSite_valid (s : String) (dt : DT) (hp : parseSite s = some dt) :
    validDT dt := by
  simp only [parseSite, Option.bind_eq_some] at hp
  obtain ⟨ml, -, l1, -, l2, -, dl, -, l3, -, l4, -, yl, -, l5, -, hl, -, l6, -,
    mil, -, l7, -, ap, -, hfin⟩ := hp
  obtain ⟨pm, rest⟩ := ap
  cases rest with
  | cons c cs => simp at hfin
  | nil =>
    dsimp only at hfin
    split_ifs at hfin with hc
    have hx := Option.some.inj hfin
    subst hx
    exact hc.2.2

/-- Helper: parsing back a canonical rendering of a valid datetime
recovers the datetime. -/
theorem parseCanonical_formatCanonical (dt : DT) (h : validDT dt) :
    parseCanonical (formatCanonical dt) = some dt := by
  have hv := h
  obtain ⟨h1, h2, h3, h4, h5, h6, h7, h8, h9⟩ := h
  have hd31 : dt.day ≤ 31 := le_trans h6 (daysInMonth_le _ _)
  have hm99 : dt.month ≤ 99 := by omega
  have hd99 : dt.day ≤ 99 := by omega
  have hh99 : dt.hour ≤ 99 := by omega
  have hmi99 : dt.minute ≤ 99 := by omega
  have hs99 : dt.second ≤ 99 := by omega
  unfold parseCanonical formatCanonical
  rw [data_mk]
  simp only [List.cons_append, List.append_assoc, read4_pad4 dt.year h2,
    Option.some_bind, expectC_cons, read2_pad2 dt.month hm99,
    read2_pad2 dt.day hd99, read2_pad2 dt.hour hh99,
    read2_pad2 dt.minute hmi99, read2_pad2 dt.second hs99]
  simp [hv]

/-- Helper: the canonical rendering of a valid datetime has the
canonical shape. -/
theorem matchesCanonicalPattern_format (dt : DT) (h : validDT dt) :
    matchesCanonicalPattern (formatCanonical dt) = true := by
  obtain ⟨h1, h2, h3, h4, h5, h6, h7, h8, h9⟩ := h
  have hd31 : dt.day ≤ 31 := le_trans h6 (daysInMonth_le _ _)
  have hm99 : dt.month ≤ 99 := by omega
  have hd99 : dt.day ≤ 99 := by omega
  have hh99 : dt.hour ≤ 99 := by omega
  have hmi99 : dt.minute ≤ 99 := by omega
  have hs99 : dt.second ≤ 99 := by omega
  unfold matchesCanonicalPattern formatCanonical
  rw [data_mk]
  simp only [List.cons_append, List.append_assoc, read4_pad4 dt.year h2,
    Option.some_bind, expectC_cons, read2_pad2 dt.month hm99,
    read2_pad2 dt.day hd99, read2_pad2 dt.hour hh99,
    read2_pad2 dt.minute hmi99, read2_pad2 dt.second hs99]

/-- C1 counterexample: with `maximum_items_to_collect = 0` and a scanner
that yields one record, `query`'s loop still yields that record (the cap
is only checked after a yield), so the pipeline yields 1 > 0 records. -/
theorem C1_counterexample :
    (queryYield [itemA] 0).length = 1 ∧ ¬ ((queryYield [itemA] 0).length ≤ 0) := by
  constructor
  · rfl
  · decide

/-- C1 (amended): for every `maximum_items_to_collect = N ≥ 1` the
pipeline yields at most N records (with N = 0 it can yield one record),
and it yields zero records whenever the scanner yields zero. -/
theorem C1_pipeline_cap (scan : List Item) (N : Int) (hN : 1 ≤ N) :
    ((queryYield scan N).length : Int) ≤ N ∧ ∀ M : Int, queryYield [] M = [] := by
  constructor
  · have := queryLoop_length_le scan N 0 (by omega)
    simpa [queryYield] using this
  · intro M
    rfl

/-- C1 witness: the cap bound at a concrete scanner output of three
records and cap 2, and the empty-scan case at cap 7. -/
theorem C1_pipeline_cap_witness :
    ((queryYield [itemA, itemA, itemA] 2).length : Int) ≤ 2 ∧ queryYield [] 7 = [] :=
  ⟨(C1_pipeline_cap [itemA, itemA, itemA] 2 (by decide)).1,
   (C1_pipeline_cap [itemA, itemA, itemA] 2 (by decide)).2 7⟩

/-- C3: the scanner yields exactly the records fetched from the longest
prefix of links that all produce records (so: document order, at most one
record per link, and a hard stop at the first link that produces none,
ignoring all later links), and in particular never more records than
links. -/
theorem C3_scanner_stops_at_first_failure
    (fetch : String → Option Item) (cards : List Card) :
    parse_entry_for_elements fetch cards =
      (cards.takeWhile fun c => (fetch (articleUrl c)).isSome).filterMap
        (fun c => fetch (articleUrl c)) ∧
    (parse_entry_for_elements fetch cards).length ≤ cards.length := by
  induction cards with
  | nil => exact ⟨rfl, Nat.le_refl 0⟩
  | cons c rest ih =>
    cases hf : fetch (articleUrl c) with
    | none =>
      refine ⟨?_, ?_⟩
      · simp [parse_entry_for_elements, List.takeWhile_cons, hf]
      · simp [parse_entry_for_elements, hf]
    | some item =>
      refine ⟨?_, ?_⟩
      · simp [parse_entry_for_elements, List.takeWhile_cons, hf, ih.1]
      · simp only [parse_entry_for_elements, hf, List.length_cons]
        exact Nat.succ_le_succ ih.2

/-- C7 counterexample: an href that is already an absolute URL is not
used unchanged; the site origin is prepended to it anyway. -/
theorem C7_counterexample :
    articleUrl ⟨"https://example.com/news/1"⟩ ≠ "https://example.com/news/1" := by
  decide

/-- C7 (amended): the article URL is always built by prepending the site
origin to the href, whether or not the href is relative; in particular
no href (absolute or not) is ever used unchanged. -/
theorem C7_url_always_prepends (c : Card) :
    articleUrl c = "https://seekingalpha.com" ++ c.href ∧ articleUrl c ≠ c.href := by
  refine ⟨rfl, fun h => ?_⟩
  have hlen := congrArg String.length h
  rw [articleUrl, String.length_append] at hlen
  have h24 : ("https://seekingalpha.com" : String).length = 24 := rfl
  omega

/-- C8: every failure raised inside a fetch body is caught at its point
of origin and converted into no record: a raising article fetch yields
`none`, a raising listing fetch yields an empty scan, and the pipeline on
a raising listing fetch yields zero records and terminates (the
embedding is total, so no exception reaches the caller). -/
theorem C8_failures_become_no_record
    (body : String → Except Err (Option Item)) (u : String) (e : Err)
    (params : PyParams) (fetch : String → Option Item)
    (h : body u = .error e) :
    request_content_with_timeout body u = none ∧
    request_entries_with_timeout (.error e) fetch = [] ∧
    query params (.error e) fetch = [] := by
  refine ⟨?_, rfl, rfl⟩
  simp [request_content_with_timeout, h]

/-- C8 witness: a body raising a timeout error on a concrete URL. -/
theorem C8_failures_become_no_record_witness :
    request_content_with_timeout (fun _ => .error "timeout") "https://seekingalpha.com/x" = none ∧
    request_entries_with_timeout (.error "timeout") (fun _ => none) = [] ∧
    query .noneV (.error "timeout") (fun _ => none) = [] :=
  C8_failures_become_no_record (fun _ => .error "timeout")
    "https://seekingalpha.com/x" "timeout" .noneV (fun _ => none) rfl

/-- C9: `read_parameters` is total: `None`, a non-dict value and the
empty dict all give the default triple (360, 25, 10), and for every dict
each component is the dict value at its key when present and the default
otherwise. -/
theorem C9_read_parameters_total :
    read_parameters .noneV = (360, 25, 10) ∧
    read_parameters .nonDict = (360, 25, 10) ∧
    read_parameters (.dict []) = (360, 25, 10) ∧
    ∀ m, read_parameters (.dict m) =
      (dictGet m "max_oldness_seconds" 360,
       dictGet m "maximum_items_to_collect" 25,
       dictGet m "min_post_length" 10) := by
  refine ⟨rfl, rfl, rfl, fun m => ?_⟩
  cases m with
  | nil => rfl
  | cons kv rest => rfl

/-- Helper: matching a list that starts with the pattern itself succeeds
and returns the rest. -/
theorem dropLead_self_append (p l : List Char) : dropLead p (p ++ l) = some l := by
  induction p with
  | nil => rfl
  | cons c cs ih => simp [dropLead, ih]

/-- Helper: a non-empty all-word-character string, appended to the
literal label, matches the boilerplate regex (with or without colon the
tail check passes; here: without colon). -/
theorem matchesMoreOn_word (w : String) (hne : w.data ≠ [])
    (hw : ∀ c ∈ w.data, isWordChar c = true) :
    matchesMoreOn ("More on " ++ w) = true := by
  have hdata : ("More on " ++ w).data = "More on ".data ++ w.data :=
    String.data_append _ _
  have hchop : chopNl ("More on ".data ++ w.data) = "More on ".data ++ w.data := by
    rw [chopNl, List.getLast?_append_of_ne_nil _ hne]
    cases hgl : w.data.getLast? with
    | none => exact absurd (List.getLast?_eq_none_iff.mp hgl) hne
    | some c =>
      have hc : isWordChar c = true :=
        hw c (List.mem_of_mem_getLast? (by rw [hgl]; rfl))
      have hcn : c ≠ '\n' := by
        intro h
        rw [h] at hc
        exact absurd hc (by decide)
      rw [if_neg (fun hcontra => hcn (Option.some.inj hcontra))]
  have ht : w.data.takeWhile isWordChar = w.data :=
    List.takeWhile_eq_self_iff.mpr hw
  have hd : w.data.dropWhile isWordChar = [] :=
    List.dropWhile_eq_nil_iff.mpr hw
  rw [matchesMoreOn, hdata, hchop, dropLead_self_append]
  simp [wordColonTail, ht, hd, hne]

/-- Helper: a non-heading, non-figure child with non-empty text matching
the boilerplate regex makes the loop stop with nothing accumulated from
this point on. -/
theorem extractBody_halt (e : El) (rest : List El)
    (h1 : ¬ e.name = "h2") (h2 : e.name ≠ "figure" ∧ e.text ≠ "")
    (h3 : matchesMoreOn e.text = true) :
    extractBody (e :: rest) = "" := by
  simp [extractBody, h1, h2, h3]

/-- C2: the code builds the author field with Python `str.lstrip("By: ")`,
which strips the leading character set B, y, colon, space rather than
removing the prefix: on author text "By: Bob" it also consumes the
leading B of the name, producing "ob" where the claim requires "Bob". -/
theorem C2_author_lstrip_bug :
    stripAuthorLabel "By: Bob" = "ob" ∧ stripAuthorLabel "By: Bob" ≠ "Bob" := by
  constructor
  · rfl
  · decide

/-- C6: on a container whose direct children are p "A", a figure, the
boilerplate paragraph "More on XYZ:", and p "B", the extracted body is
exactly "A\n": the figure contributes nothing, the boilerplate paragraph
halts the loop, and "B" is never appended. -/
theorem C6_body_extraction_example :
    extractBody [⟨"p", "A"⟩, ⟨"figure", "Chart"⟩, ⟨"p", "More on XYZ:"⟩, ⟨"p", "B"⟩]
      = "A" ++ "\n" := by
  rfl

/-- C10: the colon in the boilerplate pattern is optional, so a non-figure
paragraph whose whole text is "More on" followed by a single word and no
colon also halts extraction (here placed first, so nothing at all is
extracted, whatever follows). -/
theorem C10_boilerplate_colon_optional (w : String) (rest : List El)
    (hne : w.data ≠ []) (hw : ∀ c ∈ w.data, isWordChar c = true) :
    extractBody (⟨"p", "More on " ++ w⟩ :: rest) = "" := by
  have htext : ("More on " ++ w) ≠ "" := by
    intro h
    have h2 : ("More on " ++ w).data = [] := by rw [h]
    rw [String.data_append] at h2
    exact hne (List.append_eq_nil.mp h2).2
  refine extractBody_halt _ rest ?_ ⟨?_, htext⟩ (matchesMoreOn_word w hne hw)
  · show ¬ ("p" : String) = "h2"
    decide
  · show ("p" : String) ≠ "figure"
    decide

/-- C10 witness: the concrete container [p "More on TSLA", p "B"]
yields an empty body. -/
theorem C10_boilerplate_colon_optional_witness :
    extractBody [El.mk "p" ("More on " ++ "TSLA"), El.mk "p" "B"] = "" :=
  C10_boilerplate_colon_optional "TSLA" [El.mk "p" "B"] (by decide) (by decide)

/-- C4 counterexample: "Dec. 31, 9999 11:59 PM ET" is a well-formed
site-format date string (it parses to the last representable minute of
year 9999), yet the normalizer produces no canonical string at all: in
the source, `datetime + timedelta(hours=4)` raises OverflowError past
MAXYEAR, so `convert_date_to_standard_format` raises instead of
returning. -/
theorem C4_counterexample :
    parseSite (removeET "Dec. 31, 9999 11:59 PM ET") =
      some ⟨9999, 12, 31, 23, 59, 0⟩ ∧
    convert_date_to_standard_format "Dec. 31, 9999 11:59 PM ET" = none :=
  ⟨rfl, rfl⟩

/-- C4 (amended): for every site-format date string whose parsed time
plus four hours stays within `datetime`'s year range, the normalizer
returns the canonical rendering of the parsed time plus four hours;
that string matches the fixed canonical pattern, parsing it back with
the canonical format recovers that datetime, and that datetime lies
exactly four hours (14400 seconds) after the naive zone-free parse of
the input. -/
theorem C4_date_normalizer (s : String) (dt : DT)
    (hp : parseSite (removeET s) = some dt)
    (hy : (addHours4 dt).year ≤ 9999) :
    convert_date_to_standard_format s = some (formatCanonical (addHours4 dt)) ∧
    matchesCanonicalPattern (formatCanonical (addHours4 dt)) = true ∧
    parseCanonical (formatCanonical (addHours4 dt)) = some (addHours4 dt) ∧
    toSeconds (addHours4 dt) = toSeconds dt + 14400 := by
  have hv := parseSite_valid _ _ hp
  have hv2 := validDT_addHours4 dt hv hy
  refine ⟨?_, matchesCanonicalPattern_format _ hv2,
    parseCanonical_formatCanonical _ hv2, toSeconds_addHours4 dt hv⟩
  unfold convert_date_to_standard_format
  rw [hp]
  simp [hy]

/-- C4 witness: the docstring's example date "Jul. 18, 2023 8:13 AM ET"
normalizes to "2023-07-18T12:13:00.00Z" and satisfies all four
conclusions. -/
theorem C4_date_normalizer_witness :
    convert_date_to_standard_format "Jul. 18, 2023 8:13 AM ET" =
      some (formatCanonical (addHours4 ⟨2023, 7, 18, 8, 13, 0⟩)) ∧
    matchesCanonicalPattern (formatCanonical (addHours4 ⟨2023, 7, 18, 8, 13, 0⟩)) = true ∧
    parseCanonical (formatCanonical (addHours4 ⟨2023, 7, 18, 8, 13, 0⟩)) =
      some (addHours4 ⟨2023, 7, 18, 8, 13, 0⟩) ∧
    toSeconds (addHours4 ⟨2023, 7, 18, 8, 13, 0⟩) =
      toSeconds ⟨2023, 7, 18, 8, 13, 0⟩ + 14400 :=
  C4_date_normalizer "Jul. 18, 2023 8:13 AM ET" ⟨2023, 7, 18, 8, 13, 0⟩
    (by rfl) (by decide)

/-- C5: on any string the canonical parser accepts, the age filter
returns True exactly when the elapsed seconds (now minus timestamp) are
at most the budget — the boundary case included — and, for the
nonnegative budgets the configuration admits, every future-dated
timestamp (negative elapsed time) is accepted. -/
theorem C5_age_filter (s : String) (dt : DT) (maxAge : Int) (now : DT)
    (hp : parseCanonical s = some dt) (hB : 0 ≤ maxAge) :
    (check_for_max_age s maxAge now = some true ↔
      (toSeconds now : Int) - (toSeconds dt : Int) ≤ maxAge) ∧
    ((toSeconds now : Int) < (toSeconds dt : Int) →
      check_for_max_age s maxAge now = some true) := by
  unfold check_for_max_age
  rw [hp]
  dsimp only
  refine ⟨?_, fun hfut => ?_⟩
  · split_ifs with hc
    · simp [hc]
    · simp [hc]
  · rw [if_pos (show (toSeconds now : Int) - (toSeconds dt : Int) ≤ maxAge by omega)]

/-- C5 witness: a timestamp two minutes in the past against a 360
second budget, and the future-acceptance implication, at concrete
values. -/
theorem C5_age_filter_witness :
    (check_for_max_age "2023-07-18T12:13:00.00Z" 360 ⟨2023, 7, 18, 12, 15, 0⟩ = some true ↔
      (toSeconds ⟨2023, 7, 18, 12, 15, 0⟩ : Int) -
        (toSeconds ⟨2023, 7, 18, 12, 13, 0⟩ : Int) ≤ 360) ∧
    ((toSeconds ⟨2023, 7, 18, 12, 15, 0⟩ : Int) <
        (toSeconds ⟨2023, 7, 18, 12, 13, 0⟩ : Int) →
      check_for_max_age "2023-07-18T12:13:00.00Z" 360 ⟨2023, 7, 18, 12, 15, 0⟩ = some true) :=
  C5_age_filter "2023-07-18T12:13:00.00Z" ⟨2023, 7, 18, 12, 13, 0⟩ 360
    ⟨2023, 7, 18, 12, 15, 0⟩ (by rfl) (by decide)

end SeekingAlpha
